import Mathlib

/-!
# Verification of rotki's CSV data-import utilities

Shallow embedding of `rotkehlchen/data_import/utils.py`: the
`BaseExchangeImporter` record buffer with its flush coordinator
(`add_trade`, `add_margin_trade`, `add_asset_movement`,
`add_history_events`, `maybe_flush_all`, `flush_all`), the `import_csv`
session wrapper, `process_rotki_generic_import_csv_fields`,
`hash_csv_row` and `detect_duplicate_event`.

State is passed explicitly: the importer's four pending lists become an
`ImporterState`, and the persistent store (an external collaborator,
`DBHandler` / `DBHistoryEvents`) becomes a `DBState` that records both the
tables' contents and the ordered log of write-endpoint calls it received.
Record payloads (`Trade`, `MarginPosition`, `AssetMovement`,
`HistoryBaseEntry`) are external data structures; they are modelled as
opaque payload wrappers, except history events which are modelled at the
level of their serialized database row (the columns the duplicate query
reads).
-/

set_option maxRecDepth 100000

namespace RotkiImport

/-- External `Trade` record; its contents are irrelevant to the buffer
logic, so it is an opaque payload. -/
structure Trade where
  payload : Nat
deriving DecidableEq

/-- External `MarginPosition` record, opaque payload. -/
structure MarginPosition where
  payload : Nat
deriving DecidableEq

/-- External `AssetMovement` record, opaque payload. -/
structure AssetMovement where
  payload : Nat
deriving DecidableEq

/-- A history event, modelled as the serialized database row the
`history_events` table stores: the columns named by the duplicate-check
query.  `amount` is the exact string serialization `str(amount)` that the
store writes, `asset` is `asset.identifier`, `location` is
`location.serialize_for_db()`, `type`/`subtype` are the serialized
`HistoryEventType`/`HistoryEventSubType`. -/
structure HistoryEventRow where
  event_identifier : String
  asset : String
  amount : String
  timestamp : Nat
  location : String
  type : String
  subtype : String
deriving DecidableEq

/-- One call to a store write endpoint, with the batch it received.
Mirrors `DBHandler.add_trades` / `add_margin_positions` /
`add_asset_movements` and `DBHistoryEvents.add_history_events`. -/
inductive WriteCall where
  | addTrades (batch : List Trade)
  | addMarginPositions (batch : List MarginPosition)
  | addAssetMovements (batch : List AssetMovement)
  | addHistoryEvents (batch : List HistoryEventRow)
deriving DecidableEq

/-- The persistent store: table contents plus the ordered log of write
calls it has received.  The store itself is an external collaborator; only
the shape of its four write endpoints and of the committed
`history_events` table matters here. -/
structure DBState where
  calls : List WriteCall
  trades_table : List Trade
  margin_table : List MarginPosition
  movements_table : List AssetMovement
  history_events_table : List HistoryEventRow
deriving DecidableEq

/-- Store endpoint `DBHandler.add_trades`: appends the batch to the trades
table and logs the call. -/
def DBState.add_trades (db : DBState) (batch : List Trade) : DBState :=
  { db with calls := db.calls ++ [WriteCall.addTrades batch],
            trades_table := db.trades_table ++ batch }

/-- Store endpoint `DBHandler.add_margin_positions`. -/
def DBState.add_margin_positions (db : DBState) (batch : List MarginPosition) : DBState :=
  { db with calls := db.calls ++ [WriteCall.addMarginPositions batch],
            margin_table := db.margin_table ++ batch }

/-- Store endpoint `DBHandler.add_asset_movements`. -/
def DBState.add_asset_movements (db : DBState) (batch : List AssetMovement) : DBState :=
  { db with calls := db.calls ++ [WriteCall.addAssetMovements batch],
            movements_table := db.movements_table ++ batch }

/-- Store endpoint `DBHistoryEvents.add_history_events`. -/
def DBState.add_history_events (db : DBState) (batch : List HistoryEventRow) : DBState :=
  { db with calls := db.calls ++ [WriteCall.addHistoryEvents batch],
            history_events_table := db.history_events_table ++ batch }

/-- The four pending lists of `BaseExchangeImporter` (`self._trades`,
`self._margin_trades`, `self._asset_movements`, `self._history_events`). -/
structure ImporterState where
  trades : List Trade
  margin_trades : List MarginPosition
  asset_movements : List AssetMovement
  history_events : List HistoryEventRow
deriving DecidableEq

/-- A freshly constructed importer: all four pending lists empty. -/
def emptyImporter : ImporterState :=
  { trades := [], margin_trades := [], asset_movements := [], history_events := [] }

/-- `ITEMS_PER_DB_WRITE = 400`. -/
def ITEMS_PER_DB_WRITE : Nat := 400

/-- Total number of buffered records, the quantity `maybe_flush_all`
compares against `ITEMS_PER_DB_WRITE`. -/
def totalPending (imp : ImporterState) : Nat :=
  imp.trades.length + imp.margin_trades.length +
    imp.asset_movements.length + imp.history_events.length

/-- `flush_all`: write each pending list to its store endpoint in source
order (trades, margin positions, asset movements, history events), then
reset all four lists to empty. -/
def flush_all (imp : ImporterState) (db : DBState) : ImporterState × DBState :=
  let db1 := db.add_trades imp.trades
  let db2 := db1.add_margin_positions imp.margin_trades
  let db3 := db2.add_asset_movements imp.asset_movements
  let db4 := db3.add_history_events imp.history_events
  (emptyImporter, db4)

/-- `maybe_flush_all`: flush when the summed pending lengths reach
`ITEMS_PER_DB_WRITE`, otherwise do nothing. -/
def maybe_flush_all (imp : ImporterState) (db : DBState) : ImporterState × DBState :=
  if imp.trades.length + imp.margin_trades.length + imp.asset_movements.length +
      imp.history_events.length ≥ ITEMS_PER_DB_WRITE then
    flush_all imp db
  else
    (imp, db)

/-- `add_trade`: append one trade, then `maybe_flush_all`. -/
def add_trade (t : Trade) (imp : ImporterState) (db : DBState) : ImporterState × DBState :=
  maybe_flush_all { imp with trades := imp.trades ++ [t] } db

/-- `add_margin_trade`: append one margin position, then `maybe_flush_all`. -/
def add_margin_trade (m : MarginPosition) (imp : ImporterState) (db : DBState) :
    ImporterState × DBState :=
  maybe_flush_all { imp with margin_trades := imp.margin_trades ++ [m] } db

/-- `add_asset_movement`: append one asset movement, then `maybe_flush_all`. -/
def add_asset_movement (a : AssetMovement) (imp : ImporterState) (db : DBState) :
    ImporterState × DBState :=
  maybe_flush_all { imp with asset_movements := imp.asset_movements ++ [a] } db

/-- `add_history_events`: extend with a list of events, then
`maybe_flush_all`. -/
def add_history_events (hs : List HistoryEventRow) (imp : ImporterState) (db : DBState) :
    ImporterState × DBState :=
  maybe_flush_all { imp with history_events := imp.history_events ++ hs } db

/-!
## The import session (`import_csv`)

The abstract `_import_csv` hook is an injected behaviour.  In Python it
mutates the importer and may raise; here it returns the states it left
behind together with the exception it raised, if any, so the states on the
failure paths stay observable.  `InputError` is the one exception kind
`import_csv` catches; every other kind propagates (`Except.error`).  The
`db.user_write()` transaction context is an external collaborator: it
commits or rolls back but performs no buffer flush of its own, so it is
not part of the flush model.
-/

/-- Exception kinds reaching `import_csv`: rotki's `InputError`, or any
other exception (store-layer errors, bugs, ...). -/
inductive CsvError where
  | inputError (msg : String)
  | otherError (msg : String)
deriving DecidableEq

/-- The `_import_csv` hook: consumes the importer and store states and
returns the states as they are when it finishes or raises, plus the
exception it raised, if any. -/
def Hook : Type :=
  ImporterState → DBState → ImporterState × DBState × Option CsvError

/-- `import_csv`: run the hook; if it finished normally, perform the final
`flush_all` and return `(True, '')`; if it raised `InputError(m)`, return
`(False, m)` with no further flush; any other exception propagates. -/
def import_csv (hook : Hook) (imp : ImporterState) (db : DBState) :
    Except CsvError (Bool × String) × ImporterState × DBState :=
  match hook imp db with
  | (imp1, db1, none) =>
      let flushed := flush_all imp1 db1
      (Except.ok (true, ""), flushed)
  | (imp1, db1, some (CsvError.inputError m)) =>
      (Except.ok (false, m), imp1, db1)
  | (imp1, db1, some (CsvError.otherError m)) =>
      (Except.error (CsvError.otherError m), imp1, db1)

/-!
## Duplicate detection (`detect_duplicate_event`)

The candidate's attributes are modelled at the level at which the query
compares them: `asset` is `asset.identifier`, `amount` is `str(amount)`
(the exact string serialization, the same one the store writes),
`location`, `event_type` and `event_subtype` are their database
serializations.  The SQL `event_identifier LIKE '<prefix>%'` is a prefix
match on the identifier column.
-/

/-- The attributes `detect_duplicate_event` receives, in their
database-serialized form. -/
structure EventCandidate where
  event_type : String
  event_subtype : String
  amount : String
  asset : String
  timestamp_ms : Nat
  location : String
  event_prefix : String
deriving DecidableEq

/-- `LIKE '<prefix>%'`: the identifier's characters start with the
prefix's. -/
def strStartsWith (s p : String) : Bool :=
  p.data.isPrefixOf s.data

/-- The `WHERE` clause of the duplicate query: identifier starts with the
prefix, and asset, amount (string-serialized), timestamp, location, type
and subtype are exactly equal. -/
def eventMatches (c : EventCandidate) (r : HistoryEventRow) : Bool :=
  strStartsWith r.event_identifier c.event_prefix &&
    r.asset == c.asset && r.amount == c.amount && r.timestamp == c.timestamp_ms &&
    r.location == c.location && r.type == c.event_type && r.subtype == c.event_subtype

/-- `detect_duplicate_event`: flush all pending records, then count the
committed `history_events` rows matching the candidate and return whether
the count is nonzero.  The flush's state changes are returned alongside
the boolean since the Python importer is mutated in place. -/
def detect_duplicate_event (c : EventCandidate) (imp : ImporterState) (db : DBState) :
    Bool × ImporterState × DBState :=
  let flushed := flush_all imp db
  let cnt := (flushed.2.history_events_table.filter (fun r => eventMatches c r)).length
  (cnt != 0, flushed)

/-!
## Generic CSV field processing (`process_rotki_generic_import_csv_fields`)

A CSV row is an insertion-ordered mapping from column name to raw string
value, modelled as an association list with unique keys; `lookupKey`
mirrors Python's `row[key]`, raising `KeyError` on a missing key.  The
deserializers (`Location.deserialize`, `deserialize_timestamp`,
`deserialize_asset_amount`) and the asset resolvers
(`LOCATION_TO_ASSET_MAPPING`, `asset_from_common_identifier`) are external
collaborators, passed in as `Option`-valued functions (`none` = the
collaborator raised a deserialization/unknown-asset error).  The matches
below follow Python's evaluation order exactly: `Location`, `Timestamp`,
`Fee` (conditional expression evaluates the subscript first), the
currency column, then `Fee Currency` — whose subscript is evaluated
unconditionally, before the `fee is not None` test. -/

/-- Errors out of the field processor: a missing column (`KeyError`) or a
failing external deserializer/resolver. -/
inductive FieldError where
  | keyError (key : String)
  | deserializationError (what : String)
deriving DecidableEq

/-- A CSV row: insertion-ordered association list from column name to raw
string value. -/
abbrev CsvRow : Type := List (String × String)

/-- `row[key]`: first value bound to `key`, or `KeyError`. -/
def lookupKey (row : CsvRow) (key : String) : Except FieldError String :=
  match List.lookup key row with
  | some v => Except.ok v
  | none => Except.error (FieldError.keyError key)

/-- The external collaborators `process_rotki_generic_import_csv_fields`
calls out to. -/
structure GenericCsvDeps where
  locationDeserialize : String → Option String
  timestampDeserialize : String → Option Nat
  amountDeserialize : String → Option String
  locationToAssetMapping : String → Option (String → Option String)
  assetFromCommonIdentifier : String → Option String

/-- `LOCATION_TO_ASSET_MAPPING.get(location, asset_from_common_identifier)`:
the per-location resolver when the table has one, else the common-identifier
resolver. -/
def assetMapping (deps : GenericCsvDeps) (location : String) : String → Option String :=
  (deps.locationToAssetMapping location).getD deps.assetFromCommonIdentifier

/-- `process_rotki_generic_import_csv_fields`, with each step in Python's
evaluation order and each external failure surfaced as an error. -/
def process_rotki_generic_import_csv_fields (deps : GenericCsvDeps)
    (csv_row : CsvRow) (currency_colname : String) :
    Except FieldError (String × Option String × Option String × String × Nat) :=
  match lookupKey csv_row "Location" with
  | Except.error e => Except.error e
  | Except.ok locStr =>
    match deps.locationDeserialize locStr with
    | none => Except.error (FieldError.deserializationError "Location")
    | some location =>
      match lookupKey csv_row "Timestamp" with
      | Except.error e => Except.error e
      | Except.ok tsStr =>
        match deps.timestampDeserialize tsStr with
        | none => Except.error (FieldError.deserializationError "Timestamp")
        | some timestamp =>
          match lookupKey csv_row "Fee" with
          | Except.error e => Except.error e
          | Except.ok feeStr =>
            match (if feeStr ≠ "" then
                     (deps.amountDeserialize feeStr).map Option.some
                   else some none) with
            | none => Except.error (FieldError.deserializationError "Fee")
            | some fee =>
              match lookupKey csv_row currency_colname with
              | Except.error e => Except.error e
              | Except.ok curStr =>
                match assetMapping deps location curStr with
                | none => Except.error (FieldError.deserializationError "asset")
                | some asset =>
                  match lookupKey csv_row "Fee Currency" with
                  | Except.error e => Except.error e
                  | Except.ok fcStr =>
                    match (if fcStr ≠ "" ∧ fee.isSome then
                             (assetMapping deps location fcStr).map Option.some
                           else some none) with
                    | none => Except.error (FieldError.deserializationError "fee asset")
                    | some fee_currency =>
                      Except.ok (asset, fee, fee_currency, location, timestamp)

/-!
## Row hashing (`hash_csv_row`)

`hash_csv_row` is `hashlib.sha256(str(csv_row).encode()).hexdigest()`.
SHA-256 (FIPS 180-4) is implemented below over `Nat`, with 32-bit
wrap-around written as explicit `% 2 ^ 32`; every definition is
structurally recursive so concrete digests evaluate in the kernel.
`str(csv_row)` is Python's textual form of a dict of strings,
`{'k': 'v', ...}` in insertion order; `.encode()` is UTF-8, which for the
ASCII rows considered here is the identity on code points.
-/

/-- 2^32, the word modulus. -/
def w32 : Nat := 4294967296

/-- Addition modulo 2^32. -/
def add32 (a b : Nat) : Nat := (a + b) % w32

/-- Right rotation of a 32-bit word by `n` places. -/
def rotr32 (n a : Nat) : Nat := ((a >>> n) ||| (a <<< (32 - n))) % w32

/-- `Ch(e,f,g) = (e ∧ f) ⊕ (¬e ∧ g)`; complement is xor with the all-ones
word. -/
def shaCh (e f g : Nat) : Nat := (e &&& f) ^^^ ((e ^^^ 4294967295) &&& g)

/-- `Maj(a,b,c) = (a ∧ b) ⊕ (a ∧ c) ⊕ (b ∧ c)`. -/
def shaMaj (a b c : Nat) : Nat := (a &&& b) ^^^ (a &&& c) ^^^ (b &&& c)

/-- `Σ₀`. -/
def bsig0 (x : Nat) : Nat := rotr32 2 x ^^^ rotr32 13 x ^^^ rotr32 22 x

/-- `Σ₁`. -/
def bsig1 (x : Nat) : Nat := rotr32 6 x ^^^ rotr32 11 x ^^^ rotr32 25 x

/-- `σ₀`. -/
def ssig0 (x : Nat) : Nat := rotr32 7 x ^^^ rotr32 18 x ^^^ (x >>> 3)

/-- `σ₁`. -/
def ssig1 (x : Nat) : Nat := rotr32 17 x ^^^ rotr32 19 x ^^^ (x >>> 10)

/-- The 64 SHA-256 round constants (FIPS 180-4 §4.2.2), in decimal. -/
def shaK : List Nat :=
  [1116352408, 1899447441, 3049323471, 3921009573,
   961987163, 1508970993, 2453635748, 2870763221,
   3624381080, 310598401, 607225278, 1426881987,
   1925078388, 2162078206, 2614888103, 3248222580,
   3835390401, 4022224774, 264347078, 604807628,
   770255983, 1249150122, 1555081692, 1996064986,
   2554220882, 2821834349, 2952996808, 3210313671,
   3336571891, 3584528711, 113926993, 338241895,
   666307205, 773529912, 1294757372, 1396182291,
   1695183700, 1986661051, 2177026350, 2456956037,
   2730485921, 2820302411, 3259730800, 3345764771,
   3516065817, 3600352804, 4094571909, 275423344,
   430227734, 506948616, 659060556, 883997877,
   958139571, 1322822218, 1537002063, 1747873779,
   1955562222, 2024104815, 2227730452, 2361852424,
   2428436474, 2756734187, 3204031479, 3329325298]

/-- The eight-word working state / chaining value. -/
structure Sha256State where
  a : Nat
  b : Nat
  c : Nat
  d : Nat
  e : Nat
  f : Nat
  g : Nat
  h : Nat
deriving DecidableEq

/-- The SHA-256 initial hash value `H⁽⁰⁾` (FIPS 180-4 §5.3.3), in
decimal. -/
def shaInit : Sha256State :=
  ⟨1779033703, 3144134277, 1013904242, 2773480762,
   1359893119, 2600822924, 528734635, 1541459225⟩

/-- Extend the message schedule by one word:
`W[t] = σ₁(W[t-2]) + W[t-7] + σ₀(W[t-15]) + W[t-16]` where `t` is the
current length. -/
def extendStep (ws : List Nat) : List Nat :=
  let n := ws.length
  ws ++ [add32 (add32 (ssig1 (ws.getD (n - 2) 0)) (ws.getD (n - 7) 0))
               (add32 (ssig0 (ws.getD (n - 15) 0)) (ws.getD (n - 16) 0))]

/-- Apply `extendStep` `k` times (48 times takes 16 schedule words to 64). -/
def extendSchedule (ws : List Nat) : Nat → List Nat
  | 0 => ws
  | k + 1 => extendSchedule (extendStep ws) k

/-- One compression round; `kw` is `K[t] + W[t] (mod 2^32)`. -/
def shaRound (st : Sha256State) (kw : Nat) : Sha256State :=
  let t1 := add32 (add32 st.h (bsig1 st.e)) (add32 (shaCh st.e st.f st.g) kw)
  let t2 := add32 (bsig0 st.a) (shaMaj st.a st.b st.c)
  ⟨add32 t1 t2, st.a, st.b, st.c, add32 st.d t1, st.e, st.f, st.g⟩

/-- Compress one 64-byte block, given as its 16 big-endian words, onto the
chaining value. -/
def compressBlock (st : Sha256State) (ws16 : List Nat) : Sha256State :=
  let ws := extendSchedule ws16 48
  let r := (List.zipWith add32 shaK ws).foldl shaRound st
  ⟨add32 st.a r.a, add32 st.b r.b, add32 st.c r.c, add32 st.d r.d,
   add32 st.e r.e, add32 st.f r.f, add32 st.g r.g, add32 st.h r.h⟩

/-- Group 4 big-endian bytes into one 32-bit word, across the list. -/
def bytesToWords : List Nat → List Nat
  | b0 :: b1 :: b2 :: b3 :: rest => (((b0 * 256 + b1) * 256 + b2) * 256 + b3) :: bytesToWords rest
  | _ => []

/-- The 8-byte big-endian encoding of `n` (the padded bit length). -/
def beBytes8 (n : Nat) : List Nat :=
  [(n >>> 56) % 256, (n >>> 48) % 256, (n >>> 40) % 256, (n >>> 32) % 256,
   (n >>> 24) % 256, (n >>> 16) % 256, (n >>> 8) % 256, n % 256]

/-- FIPS 180-4 §5.1.1 padding: append `0x80`, zero bytes up to 56 mod 64,
then the 64-bit big-endian bit length. -/
def padBytes (msg : List Nat) : List Nat :=
  let zeros := (64 - (msg.length + 9) % 64) % 64
  msg ++ [128] ++ List.replicate zeros 0 ++ beBytes8 (msg.length * 8)

/-- Split into 64-byte chunks; `fuel` bounds the recursion so the
definition stays structural (one byte of fuel per step is ample). -/
def chunks64Aux : Nat → List Nat → List (List Nat)
  | 0, _ => []
  | _, [] => []
  | fuel + 1, l@(_ :: _) => l.take 64 :: chunks64Aux fuel (l.drop 64)

/-- Split a byte list into 64-byte chunks. -/
def chunks64 (l : List Nat) : List (List Nat) := chunks64Aux l.length l

/-- SHA-256 over a byte list: pad, then compress each block in order. -/
def sha256Bytes (msg : List Nat) : Sha256State :=
  ((chunks64 (padBytes msg)).map bytesToWords).foldl compressBlock shaInit

/-- One lowercase hex digit. -/
def hexDigit (n : Nat) : Char :=
  if n < 10 then Char.ofNat (48 + n) else Char.ofNat (87 + n)

/-- Eight lowercase hex digits of a 32-bit word, most significant first. -/
def toHex8 (n : Nat) : String :=
  String.mk ((List.range 8).map fun i => hexDigit ((n >>> ((7 - i) * 4)) % 16))

/-- `hashlib.sha256(...).hexdigest()` of a byte list. -/
def sha256Hex (msg : List Nat) : String :=
  let st := sha256Bytes msg
  toHex8 st.a ++ toHex8 st.b ++ toHex8 st.c ++ toHex8 st.d ++
    toHex8 st.e ++ toHex8 st.f ++ toHex8 st.g ++ toHex8 st.h

/-- `str.encode()` for the ASCII strings occurring in these rows: each
character's code point is one byte. -/
def strBytes (s : String) : List Nat := s.data.map Char.toNat

/-- Python's `repr` of a simple string (no quotes, backslashes or
non-printables inside): wrap in single quotes. -/
def pyReprStr (s : String) : String := "'" ++ s ++ "'"

/-- Python's `str()` of a dict of strings: `\x7b'k': 'v', ...\x7d` in
insertion order. -/
def pyStrDict (row : CsvRow) : String :=
  "\x7b" ++
    String.intercalate ", " (row.map fun p => pyReprStr p.1 ++ ": " ++ pyReprStr p.2) ++
    "\x7d"

/-- `hash_csv_row`: the SHA-256 hex digest of `str(csv_row).encode()`. -/
def hash_csv_row (csv_row : CsvRow) : String :=
  sha256Hex (strBytes (pyStrDict csv_row))

/-!
## Append sequences

`ImportRecord` is one record of any of the four kinds, and `runAppends`
drives the corresponding `add_*` method for each record of a list in
order, modelling a row-processing hook appending records one at a time
(history events in singleton batches).  `pureAppend`/`accum` are the
specification-side companions: the same appends without the flush
coordinator, used to describe the buffer contents between flushes.
-/

/-- One pending record of any of the four kinds. -/
inductive ImportRecord where
  | trade (t : Trade)
  | margin (m : MarginPosition)
  | movement (a : AssetMovement)
  | history (h : HistoryEventRow)
deriving DecidableEq

/-- Dispatch one record to its `add_*` method (history events as a
singleton batch). -/
def addRecord (r : ImportRecord) (imp : ImporterState) (db : DBState) :
    ImporterState × DBState :=
  match r with
  | ImportRecord.trade t => add_trade t imp db
  | ImportRecord.margin m => add_margin_trade m imp db
  | ImportRecord.movement a => add_asset_movement a imp db
  | ImportRecord.history h => add_history_events [h] imp db

/-- Append the records of `rs` one at a time through the buffer's `add_*`
methods. -/
def runAppends (rs : List ImportRecord) (imp : ImporterState) (db : DBState) :
    ImporterState × DBState :=
  rs.foldl (fun p r => addRecord r p.1 p.2) (imp, db)

/-- Append one record to its pending list, without the flush coordinator. -/
def pureAppend (r : ImportRecord) (imp : ImporterState) : ImporterState :=
  match r with
  | ImportRecord.trade t => { imp with trades := imp.trades ++ [t] }
  | ImportRecord.margin m => { imp with margin_trades := imp.margin_trades ++ [m] }
  | ImportRecord.movement a => { imp with asset_movements := imp.asset_movements ++ [a] }
  | ImportRecord.history h => { imp with history_events := imp.history_events ++ [h] }

/-- Append a list of records without the flush coordinator. -/
def accum (rs : List ImportRecord) (imp : ImporterState) : ImporterState :=
  rs.foldl (fun s r => pureAppend r s) imp

/-- The trades of a record list, in order. -/
def tradesOf : List ImportRecord → List Trade
  | [] => []
  | ImportRecord.trade t :: rs => t :: tradesOf rs
  | _ :: rs => tradesOf rs

/-- The margin positions of a record list, in order. -/
def marginsOf : List ImportRecord → List MarginPosition
  | [] => []
  | ImportRecord.margin m :: rs => m :: marginsOf rs
  | _ :: rs => marginsOf rs

/-- The asset movements of a record list, in order. -/
def movementsOf : List ImportRecord → List AssetMovement
  | [] => []
  | ImportRecord.movement a :: rs => a :: movementsOf rs
  | _ :: rs => movementsOf rs

/-- The history events of a record list, in order. -/
def historyOf : List ImportRecord → List HistoryEventRow
  | [] => []
  | ImportRecord.history h :: rs => h :: historyOf rs
  | _ :: rs => historyOf rs

/-!
## Concrete fixtures for witnesses and counterexamples
-/

/-- A store with empty tables and no write calls yet. -/
def emptyDB : DBState :=
  { calls := [], trades_table := [], margin_table := [],
    movements_table := [], history_events_table := [] }

/-- A sample trade. -/
def sampleTrade : Trade := ⟨0⟩

/-- A hook that buffers one trade and then raises `InputError`, as a
format subclass does on a malformed row after some well-formed ones. -/
def inputErrorHook : Hook := fun imp db =>
  let p := add_trade sampleTrade imp db
  (p.1, p.2, some (CsvError.inputError "malformed row"))

/-- A hook that buffers nothing and finishes normally. -/
def okHook : Hook := fun imp db => (imp, db, none)

/-- A committed history-event row: the spend leg of a logical transaction
`AAA`. -/
def sampleRow : HistoryEventRow :=
  { event_identifier := "AAA-1", asset := "BTC", amount := "1.5",
    timestamp := 1000, location := "J", type := "trade", subtype := "spend" }

/-- A candidate carrying `sampleRow`'s attributes with identifier prefix
`AAA`. -/
def sampleCandidate : EventCandidate :=
  { event_type := "trade", event_subtype := "spend", amount := "1.5",
    asset := "BTC", timestamp_ms := 1000, location := "J", event_prefix := "AAA" }

/-- An importer state whose only pending record is `sampleRow`, buffered
below the flush threshold. -/
def bufferedImporter : ImporterState :=
  { trades := [], margin_trades := [], asset_movements := [],
    history_events := [sampleRow] }

/-- Concrete external collaborators for the field-processor witnesses:
one known location, one known timestamp, amounts and assets resolved to
themselves when nonempty. -/
def testDeps : GenericCsvDeps :=
  { locationDeserialize := fun s => if s = "kraken" then some "kraken" else none,
    timestampDeserialize := fun s => if s = "1609459200" then some 1609459200000 else none,
    amountDeserialize := fun s => if s = "" then none else some s,
    locationToAssetMapping := fun _ => none,
    assetFromCommonIdentifier := fun s => if s = "" then none else some s }

/-- A row whose `Fee` is the empty string while `Fee Currency` is set. -/
def emptyFeeRow : CsvRow :=
  [("Location", "kraken"), ("Timestamp", "1609459200"), ("Fee", ""),
   ("Fee Currency", "EUR"), ("Base Currency", "BTC")]

/-- A row lacking the `Fee Currency` column, with `Fee` empty. -/
def noFeeCurrencyRow : CsvRow :=
  [("Location", "kraken"), ("Timestamp", "1609459200"), ("Fee", ""),
   ("Base Currency", "BTC")]

/-- Two-column row, one insertion order. -/
def rowAB : CsvRow := [("a", "1"), ("b", "2")]

/-- The same two bindings, opposite insertion order. -/
def rowBA : CsvRow := [("b", "2"), ("a", "1")]

/-!
## Helper lemmas
-/

/-- `maybe_flush_all` phrased through `totalPending`. -/
theorem maybe_flush_all_eq (imp : ImporterState) (db : DBState) :
    maybe_flush_all imp db =
      if ITEMS_PER_DB_WRITE ≤ totalPending imp then flush_all imp db else (imp, db) := by
  simp [maybe_flush_all, totalPending, ge_iff_le]

/-- What `flush_all` does to the importer and the store tables. -/
theorem flush_all_spec (imp : ImporterState) (db : DBState) :
    (flush_all imp db).1 = emptyImporter ∧
    (flush_all imp db).2.trades_table = db.trades_table ++ imp.trades ∧
    (flush_all imp db).2.margin_table = db.margin_table ++ imp.margin_trades ∧
    (flush_all imp db).2.movements_table = db.movements_table ++ imp.asset_movements ∧
    (flush_all imp db).2.history_events_table =
      db.history_events_table ++ imp.history_events := by
  simp [flush_all, DBState.add_trades, DBState.add_margin_positions,
        DBState.add_asset_movements, DBState.add_history_events]

/-- After `maybe_flush_all` the pending count is below the threshold. -/
theorem totalPending_maybe_flush_all (imp : ImporterState) (db : DBState) :
    totalPending (maybe_flush_all imp db).1 < ITEMS_PER_DB_WRITE := by
  rw [maybe_flush_all_eq]
  split
  · simp [flush_all, emptyImporter, totalPending, ITEMS_PER_DB_WRITE]
  · exact lt_of_not_le (by assumption)

/-- `addRecord` is a pure append followed by the coordinator. -/
theorem addRecord_eq_maybe (r : ImportRecord) (imp : ImporterState) (db : DBState) :
    addRecord r imp db = maybe_flush_all (pureAppend r imp) db := by
  cases r <;> rfl

/-- A pure append adds exactly one record. -/
theorem totalPending_pureAppend (r : ImportRecord) (imp : ImporterState) :
    totalPending (pureAppend r imp) = totalPending imp + 1 := by
  cases r <;> simp [pureAppend, totalPending] <;> omega

/-- Below the threshold an `add_*` call is a pure append: no flush. -/
theorem addRecord_below (r : ImportRecord) (imp : ImporterState) (db : DBState)
    (h : totalPending imp + 1 < ITEMS_PER_DB_WRITE) :
    addRecord r imp db = (pureAppend r imp, db) := by
  rw [addRecord_eq_maybe, maybe_flush_all_eq, totalPending_pureAppend, if_neg]
  omega

/-- At or above the threshold an `add_*` call appends and then flushes. -/
theorem addRecord_at_threshold (r : ImportRecord) (imp : ImporterState) (db : DBState)
    (h : ITEMS_PER_DB_WRITE ≤ totalPending imp + 1) :
    addRecord r imp db = flush_all (pureAppend r imp) db := by
  rw [addRecord_eq_maybe, maybe_flush_all_eq, totalPending_pureAppend, if_pos h]

/-- While the total stays below the threshold, `runAppends` only
accumulates: the store is untouched. -/
theorem runAppends_no_flush (rs : List ImportRecord) :
    ∀ (imp : ImporterState) (db : DBState),
      totalPending imp + rs.length < ITEMS_PER_DB_WRITE →
      runAppends rs imp db = (accum rs imp, db) := by
  induction rs with
  | nil => intro imp db _; rfl
  | cons r rs ih =>
      intro imp db h
      have hstep : addRecord r imp db = (pureAppend r imp, db) := by
        apply addRecord_below
        simp only [List.length_cons] at h
        omega
      have hcons : runAppends (r :: rs) imp db = runAppends rs (pureAppend r imp) db := by
        simp [runAppends, List.foldl_cons, hstep]
      rw [hcons, ih (pureAppend r imp) db]
      · rfl
      · rw [totalPending_pureAppend]
        simp only [List.length_cons] at h
        omega

/-- The buffer contents after a run of pure appends: each pending list is
extended by the records of its kind, in order. -/
theorem accum_fields (rs : List ImportRecord) :
    ∀ imp : ImporterState,
      (accum rs imp).trades = imp.trades ++ tradesOf rs ∧
      (accum rs imp).margin_trades = imp.margin_trades ++ marginsOf rs ∧
      (accum rs imp).asset_movements = imp.asset_movements ++ movementsOf rs ∧
      (accum rs imp).history_events = imp.history_events ++ historyOf rs := by
  induction rs with
  | nil => intro imp; simp [accum, tradesOf, marginsOf, movementsOf, historyOf]
  | cons r rs ih =>
      intro imp
      have hcons : accum (r :: rs) imp = accum rs (pureAppend r imp) := rfl
      obtain ⟨h1, h2, h3, h4⟩ := ih (pureAppend r imp)
      rw [hcons]
      cases r <;>
        simp_all [pureAppend, tradesOf, marginsOf, movementsOf, historyOf]

/-- `row[key]` succeeds exactly on the mapping's binding. -/
theorem lookupKey_eq_ok (row : CsvRow) (key v : String) :
    lookupKey row key = Except.ok v ↔ List.lookup key row = some v := by
  unfold lookupKey
  cases h : List.lookup key row <;> simp

/-- `row[key]` raises `KeyError key` on a missing key. -/
theorem lookupKey_eq_err (row : CsvRow) (key : String)
    (h : List.lookup key row = none) :
    lookupKey row key = Except.error (FieldError.keyError key) := by
  unfold lookupKey
  rw [h]

/-- Pure appends grow the pending count by the list length. -/
theorem totalPending_accum (rs : List ImportRecord) :
    ∀ imp : ImporterState, totalPending (accum rs imp) = totalPending imp + rs.length := by
  induction rs with
  | nil => intro imp; rfl
  | cons r rs ih =>
      intro imp
      have hcons : accum (r :: rs) imp = accum rs (pureAppend r imp) := rfl
      rw [hcons, ih (pureAppend r imp), totalPending_pureAppend]
      simp
      omega

/-- FIPS 180-4 test vector: SHA-256 of the empty message. -/
theorem sha256Hex_empty_vector :
    sha256Hex [] =
      "e3b0c44298fc1c149afbf4c8996fb92427ae41e4649b934ca495991b7852b855" := by
  decide

/-- FIPS 180-4 test vector: SHA-256 of `abc`. -/
theorem sha256Hex_abc_vector :
    sha256Hex (strBytes "abc") =
      "ba7816bf8f01cfea414140de5dae2223b00361a396177a9cb410ff61f20015ad" := by
  decide

/-- FIPS 180-4 test vector: the 56-byte two-block message. -/
theorem sha256Hex_two_block_vector :
    sha256Hex (strBytes "abcdbcdecdefdefgefghfghighijhijkijkljklmklmnlmnomnopnopq") =
      "248d6a61d20638b8e5c026930c3e6039a33ce45964ff2167f6ecedd419db06c1" := by
  decide

/-!
## Claim theorems
-/

/-- C1: `detect_duplicate_event` returns true if and only if the count of
committed history-event records whose identifier starts with the
candidate's prefix and whose asset, string-serialized amount, timestamp,
location, type and subtype all equal the candidate's is greater than
zero — the committed records being those visible after the forced flush. -/
theorem detect_duplicate_event_iff_count_pos (c : EventCandidate)
    (imp : ImporterState) (db : DBState) :
    (detect_duplicate_event c imp db).1 = true ↔
      0 < ((flush_all imp db).2.history_events_table.filter
            (fun r => eventMatches c r)).length := by
  simp [detect_duplicate_event, Nat.pos_iff_ne_zero]

/-- C2: `detect_duplicate_event` flushes before querying, so a matching
record still sitting in the buffer (below the auto-flush threshold or
not) is visible to the existence check: the result is true, never a false
negative due to buffering. -/
theorem detect_duplicate_event_sees_buffered (c : EventCandidate)
    (imp : ImporterState) (db : DBState) (r : HistoryEventRow)
    (hmem : r ∈ imp.history_events) (hmatch : eventMatches c r = true) :
    (detect_duplicate_event c imp db).1 = true := by
  have htab : r ∈ (flush_all imp db).2.history_events_table := by
    simp [flush_all, DBState.add_trades, DBState.add_margin_positions,
          DBState.add_asset_movements, DBState.add_history_events]
    exact Or.inr hmem
  simp [detect_duplicate_event]
  exact ⟨r, htab, hmatch⟩

/-- C2 witness: `sampleRow` buffered (one pending record, far below the
threshold of 400) and matched by `sampleCandidate` is detected. -/
theorem detect_duplicate_event_sees_buffered_witness :
    sampleRow ∈ bufferedImporter.history_events ∧
    eventMatches sampleCandidate sampleRow = true ∧
    (detect_duplicate_event sampleCandidate bufferedImporter emptyDB).1 = true :=
  ⟨by decide, by decide,
   detect_duplicate_event_sees_buffered sampleCandidate bufferedImporter emptyDB
     sampleRow (by decide) (by decide)⟩

/-- C5: after any single buffer operation returns — the four `add_*`
methods, `maybe_flush_all` or `flush_all` — the total buffered count is
strictly below the flush threshold: a call that reaches the threshold
triggers the flush that clears the buffer before returning. -/
theorem buffer_ops_stay_below_threshold (imp : ImporterState) (db : DBState)
    (t : Trade) (m : MarginPosition) (a : AssetMovement) (hs : List HistoryEventRow) :
    totalPending (add_trade t imp db).1 < ITEMS_PER_DB_WRITE ∧
    totalPending (add_margin_trade m imp db).1 < ITEMS_PER_DB_WRITE ∧
    totalPending (add_asset_movement a imp db).1 < ITEMS_PER_DB_WRITE ∧
    totalPending (add_history_events hs imp db).1 < ITEMS_PER_DB_WRITE ∧
    totalPending (maybe_flush_all imp db).1 < ITEMS_PER_DB_WRITE ∧
    totalPending (flush_all imp db).1 < ITEMS_PER_DB_WRITE := by
  refine ⟨totalPending_maybe_flush_all _ _, totalPending_maybe_flush_all _ _,
          totalPending_maybe_flush_all _ _, totalPending_maybe_flush_all _ _,
          totalPending_maybe_flush_all _ _, ?_⟩
  simp [flush_all, emptyImporter, totalPending, ITEMS_PER_DB_WRITE]

/-- C6: for every buffer state, empty sequences included, `flush_all`
issues the store write calls in the fixed order trades, margin positions,
asset movements, history events, and leaves all four pending sequences
empty. -/
theorem flush_all_order_and_clear (imp : ImporterState) (db : DBState) :
    (flush_all imp db).2.calls = db.calls ++
      [WriteCall.addTrades imp.trades,
       WriteCall.addMarginPositions imp.margin_trades,
       WriteCall.addAssetMovements imp.asset_movements,
       WriteCall.addHistoryEvents imp.history_events] ∧
    (flush_all imp db).1.trades = [] ∧
    (flush_all imp db).1.margin_trades = [] ∧
    (flush_all imp db).1.asset_movements = [] ∧
    (flush_all imp db).1.history_events = [] := by
  simp [flush_all, DBState.add_trades, DBState.add_margin_positions,
        DBState.add_asset_movements, DBState.add_history_events, emptyImporter]

/-- C7: `import_csv` returns `(true, '')` when the hook (and the final
flush, which cannot itself fail here) completes; it converts exactly
`InputError` into `(false, message)`; any other exception kind propagates
uncaught. -/
theorem import_csv_error_taxonomy (hook : Hook) (imp : ImporterState) (db : DBState) :
    (import_csv hook imp db).1 =
      match (hook imp db).2.2 with
      | none => Except.ok (true, "")
      | some (CsvError.inputError m) => Except.ok (false, m)
      | some (CsvError.otherError m) => Except.error (CsvError.otherError m) := by
  rcases h : hook imp db with ⟨imp1, db1, exc⟩
  rcases exc with _ | e
  · simp [import_csv, h]
  · cases e <;> simp [import_csv, h]

/-- C3 counterexample: the claim says a final `flush_all` is attempted on
every exit path of `import_csv`, including the `InputError` escape.  It
is not: with a hook that buffers one trade and then raises `InputError`,
`import_csv` returns with the store having received no write call at all
and the trade still pending — the `flush_all` on the success path is
skipped when `_import_csv` raises, and the `except InputError` arm
returns directly. -/
theorem import_csv_no_flush_on_input_error_cex :
    (import_csv inputErrorHook emptyImporter emptyDB).2.2.calls = [] ∧
    (import_csv inputErrorHook emptyImporter emptyDB).2.1.trades = [sampleTrade] ∧
    (import_csv inputErrorHook emptyImporter emptyDB).1 =
      Except.ok (false, "malformed row") :=
  ⟨by decide, by decide, rfl⟩

/-- C3 amended: `import_csv` performs the final `flush_all` only on the
path where the row-processing hook completes without raising; when the
hook raises `InputError`, it returns `(False, message)` directly, with no
further flush attempted (the write transaction's own release is the
external context manager's business, not a buffer flush). -/
theorem import_csv_flush_only_on_success (hook : Hook) (imp : ImporterState)
    (db : DBState) (imp1 : ImporterState) (db1 : DBState) (exc : Option CsvError)
    (hrun : hook imp db = (imp1, db1, exc)) :
    (exc = none →
       import_csv hook imp db = (Except.ok (true, ""), flush_all imp1 db1)) ∧
    (∀ m, exc = some (CsvError.inputError m) →
       import_csv hook imp db = (Except.ok (false, m), imp1, db1)) := by
  constructor
  · rintro rfl
    simp [import_csv, hrun]
  · rintro m rfl
    simp [import_csv, hrun]

/-- C3 amended, witness: the trivially succeeding hook flushes on return;
the `InputError` hook returns its states untouched by any flush. -/
theorem import_csv_flush_only_on_success_witness :
    okHook emptyImporter emptyDB = (emptyImporter, emptyDB, none) ∧
    ((none : Option CsvError) = none →
       import_csv okHook emptyImporter emptyDB =
         (Except.ok (true, ""), flush_all emptyImporter emptyDB)) ∧
    (∀ m, (none : Option CsvError) = some (CsvError.inputError m) →
       import_csv okHook emptyImporter emptyDB =
         (Except.ok (false, m), emptyImporter, emptyDB)) :=
  ⟨rfl,
   (import_csv_flush_only_on_success okHook emptyImporter emptyDB
      emptyImporter emptyDB none rfl).1,
   (import_csv_flush_only_on_success okHook emptyImporter emptyDB
      emptyImporter emptyDB none rfl).2⟩

/-- C4: `maybe_flush_all` flushes exactly when the summed pending count
has reached the threshold (400) and is a no-op otherwise; consequently,
appending exactly threshold-many records one at a time from an empty
buffer leaves a pending count of zero — the threshold-th append triggered
the flush — and the store's tables received exactly those records, split
by kind in order. -/
theorem maybe_flush_all_threshold_batch (rs : List ImportRecord) (db0 : DBState)
    (hlen : rs.length = ITEMS_PER_DB_WRITE) :
    (∀ (imp : ImporterState) (db : DBState),
       maybe_flush_all imp db =
         if ITEMS_PER_DB_WRITE ≤ totalPending imp then flush_all imp db
         else (imp, db)) ∧
    totalPending (runAppends rs emptyImporter db0).1 = 0 ∧
    (runAppends rs emptyImporter db0).2.trades_table =
      db0.trades_table ++ tradesOf rs ∧
    (runAppends rs emptyImporter db0).2.margin_table =
      db0.margin_table ++ marginsOf rs ∧
    (runAppends rs emptyImporter db0).2.movements_table =
      db0.movements_table ++ movementsOf rs ∧
    (runAppends rs emptyImporter db0).2.history_events_table =
      db0.history_events_table ++ historyOf rs := by
  refine ⟨maybe_flush_all_eq, ?_⟩
  rcases List.eq_nil_or_concat rs with rfl | ⟨ys, y, rfl⟩
  · simp [ITEMS_PER_DB_WRITE] at hlen
  simp only [List.concat_eq_append] at hlen ⊢
  have hys : ys.length + 1 = ITEMS_PER_DB_WRITE := by
    simpa using hlen
  have hempty : totalPending emptyImporter = 0 := rfl
  have hrun : runAppends ys emptyImporter db0 = (accum ys emptyImporter, db0) := by
    apply runAppends_no_flush
    omega
  have hsplit : runAppends (ys ++ [y]) emptyImporter db0 =
      addRecord y (runAppends ys emptyImporter db0).1
        (runAppends ys emptyImporter db0).2 := by
    simp [runAppends, List.foldl_append]
  have hacc : totalPending (accum ys emptyImporter) = ys.length := by
    rw [totalPending_accum ys emptyImporter, hempty]
    omega
  have hflush : addRecord y (accum ys emptyImporter) db0 =
      flush_all (pureAppend y (accum ys emptyImporter)) db0 := by
    apply addRecord_at_threshold
    omega
  have haccQ : pureAppend y (accum ys emptyImporter) = accum (ys ++ [y]) emptyImporter := by
    simp [accum, List.foldl_append]
  rw [hsplit, hrun, hflush, haccQ]
  obtain ⟨hclear, htr, hmg, hmv, hhe⟩ :=
    flush_all_spec (accum (ys ++ [y]) emptyImporter) db0
  obtain ⟨atr, amg, amv, ahe⟩ := accum_fields (ys ++ [y]) emptyImporter
  refine ⟨by rw [hclear]; rfl, ?_, ?_, ?_, ?_⟩
  · rw [htr, atr]; rfl
  · rw [hmg, amg]; rfl
  · rw [hmv, amv]; rfl
  · rw [hhe, ahe]; rfl

/-- C4 witness: four hundred appends — 200 trades, then 100 margin
positions, then 50 asset movements, then 50 history events — empty the
buffer and land split by kind in the store. -/
theorem maybe_flush_all_threshold_batch_witness :
    (List.replicate 200 (ImportRecord.trade ⟨1⟩) ++
     List.replicate 100 (ImportRecord.margin ⟨2⟩) ++
     List.replicate 50 (ImportRecord.movement ⟨3⟩) ++
     List.replicate 50 (ImportRecord.history sampleRow)).length =
      ITEMS_PER_DB_WRITE ∧
    ((∀ (imp : ImporterState) (db : DBState),
       maybe_flush_all imp db =
         if ITEMS_PER_DB_WRITE ≤ totalPending imp then flush_all imp db
         else (imp, db)) ∧
     totalPending (runAppends (List.replicate 200 (ImportRecord.trade ⟨1⟩) ++
        List.replicate 100 (ImportRecord.margin ⟨2⟩) ++
        List.replicate 50 (ImportRecord.movement ⟨3⟩) ++
        List.replicate 50 (ImportRecord.history sampleRow)) emptyImporter emptyDB).1 = 0 ∧
     (runAppends (List.replicate 200 (ImportRecord.trade ⟨1⟩) ++
        List.replicate 100 (ImportRecord.margin ⟨2⟩) ++
        List.replicate 50 (ImportRecord.movement ⟨3⟩) ++
        List.replicate 50 (ImportRecord.history sampleRow)) emptyImporter emptyDB).2.trades_table =
       emptyDB.trades_table ++ tradesOf (List.replicate 200 (ImportRecord.trade ⟨1⟩) ++
        List.replicate 100 (ImportRecord.margin ⟨2⟩) ++
        List.replicate 50 (ImportRecord.movement ⟨3⟩) ++
        List.replicate 50 (ImportRecord.history sampleRow)) ∧
     (runAppends (List.replicate 200 (ImportRecord.trade ⟨1⟩) ++
        List.replicate 100 (ImportRecord.margin ⟨2⟩) ++
        List.replicate 50 (ImportRecord.movement ⟨3⟩) ++
        List.replicate 50 (ImportRecord.history sampleRow)) emptyImporter emptyDB).2.margin_table =
       emptyDB.margin_table ++ marginsOf (List.replicate 200 (ImportRecord.trade ⟨1⟩) ++
        List.replicate 100 (ImportRecord.margin ⟨2⟩) ++
        List.replicate 50 (ImportRecord.movement ⟨3⟩) ++
        List.replicate 50 (ImportRecord.history sampleRow)) ∧
     (runAppends (List.replicate 200 (ImportRecord.trade ⟨1⟩) ++
        List.replicate 100 (ImportRecord.margin ⟨2⟩) ++
        List.replicate 50 (ImportRecord.movement ⟨3⟩) ++
        List.replicate 50 (ImportRecord.history sampleRow)) emptyImporter emptyDB).2.movements_table =
       emptyDB.movements_table ++ movementsOf (List.replicate 200 (ImportRecord.trade ⟨1⟩) ++
        List.replicate 100 (ImportRecord.margin ⟨2⟩) ++
        List.replicate 50 (ImportRecord.movement ⟨3⟩) ++
        List.replicate 50 (ImportRecord.history sampleRow)) ∧
     (runAppends (List.replicate 200 (ImportRecord.trade ⟨1⟩) ++
        List.replicate 100 (ImportRecord.margin ⟨2⟩) ++
        List.replicate 50 (ImportRecord.movement ⟨3⟩) ++
        List.replicate 50 (ImportRecord.history sampleRow)) emptyImporter emptyDB).2.history_events_table =
       emptyDB.history_events_table ++ historyOf (List.replicate 200 (ImportRecord.trade ⟨1⟩) ++
        List.replicate 100 (ImportRecord.margin ⟨2⟩) ++
        List.replicate 50 (ImportRecord.movement ⟨3⟩) ++
        List.replicate 50 (ImportRecord.history sampleRow))) :=
  ⟨by decide,
   maybe_flush_all_threshold_batch
     (List.replicate 200 (ImportRecord.trade ⟨1⟩) ++
      List.replicate 100 (ImportRecord.margin ⟨2⟩) ++
      List.replicate 50 (ImportRecord.movement ⟨3⟩) ++
      List.replicate 50 (ImportRecord.history sampleRow)) emptyDB (by decide)⟩

/-- C8: whenever the generic field processor accepts a row whose `Fee`
value is the empty string, the returned fee is `None` (not zero) and the
returned fee currency is `None` too, whatever `Fee Currency` holds; and a
fee currency is resolved only when a fee value is present and the
`Fee Currency` value is nonempty. -/
theorem process_generic_fee_empty (deps : GenericCsvDeps) (row : CsvRow)
    (colname : String) (asset : String) (fee feeCur : Option String)
    (loc : String) (ts : Nat)
    (hok : process_rotki_generic_import_csv_fields deps row colname =
      Except.ok (asset, fee, feeCur, loc, ts)) :
    (List.lookup "Fee" row = some "" → fee = none ∧ feeCur = none) ∧
    (feeCur.isSome = true →
      fee.isSome = true ∧ ∃ v, List.lookup "Fee Currency" row = some v ∧ v ≠ "") := by
  unfold process_rotki_generic_import_csv_fields at hok
  split at hok
  · exact Except.noConfusion hok
  rename_i x1 locStr hL
  split at hok
  · exact Except.noConfusion hok
  rename_i x2 location hLd
  split at hok
  · exact Except.noConfusion hok
  rename_i x3 tsStr hT
  split at hok
  · exact Except.noConfusion hok
  rename_i x4 timestamp hTd
  split at hok
  · exact Except.noConfusion hok
  rename_i x5 feeStr hF
  split at hok
  · exact Except.noConfusion hok
  rename_i x6 feeVal hfee
  split at hok
  · exact Except.noConfusion hok
  rename_i x7 curStr hC
  split at hok
  · exact Except.noConfusion hok
  rename_i x8 assetVal hA
  split at hok
  · exact Except.noConfusion hok
  rename_i x9 fcStr hFC
  split at hok
  · exact Except.noConfusion hok
  rename_i x10 fcVal hfc
  simp only [Except.ok.injEq, Prod.mk.injEq] at hok
  obtain ⟨h1, h2, h3, h4, h5⟩ := hok
  constructor
  · intro hFeeEmpty
    rw [← h2, ← h3]
    have hfs : feeStr = "" := by
      rw [(lookupKey_eq_ok row "Fee" feeStr).mp hF] at hFeeEmpty
      exact Option.some.inj hFeeEmpty
    subst hfs
    simp at hfee
    subst hfee
    simp at hfc
    subst hfc
    exact ⟨rfl, rfl⟩
  · intro hSome
    rw [← h3] at hSome
    by_cases hcond : (fcStr ≠ "" ∧ feeVal.isSome = true)
    · constructor
      · rw [← h2]
        exact hcond.2
      · exact ⟨fcStr, (lookupKey_eq_ok row "Fee Currency" fcStr).mp hFC, hcond.1⟩
    · rw [if_neg hcond] at hfc
      have hnone : fcVal = none := (Option.some.inj hfc).symm
      rw [hnone] at hSome
      simp at hSome

/-- C8 witness: the row with `Fee` empty and `Fee Currency` set to `EUR`
is accepted with fee `None` and fee currency `None`. -/
theorem process_generic_fee_empty_witness :
    process_rotki_generic_import_csv_fields testDeps emptyFeeRow "Base Currency" =
      Except.ok ("BTC", none, none, "kraken", 1609459200000) ∧
    ((List.lookup "Fee" emptyFeeRow = some "" →
        (none : Option String) = none ∧ (none : Option String) = none) ∧
     ((none : Option String).isSome = true →
        (none : Option String).isSome = true ∧
          ∃ v, List.lookup "Fee Currency" emptyFeeRow = some v ∧ v ≠ "")) :=
  ⟨rfl,
   process_generic_fee_empty testDeps emptyFeeRow "Base Currency"
     "BTC" none none "kraken" 1609459200000 rfl⟩

/-- C9: the field processor reads `row['Fee Currency']` unconditionally —
the truthiness test runs before the `fee is not None` test — so a row
lacking the `Fee Currency` column makes it raise `KeyError` even when
`Fee` is empty and no fee currency would be resolved: when every earlier
step succeeds the error is exactly `KeyError 'Fee Currency'`, and no such
row is ever accepted. -/
theorem process_generic_missing_fee_currency (deps : GenericCsvDeps) (row : CsvRow)
    (colname : String) (locStr tsStr feeStr curStr loc : String) (ts : Nat)
    (hNoFC : List.lookup "Fee Currency" row = none)
    (hL : List.lookup "Location" row = some locStr)
    (hLd : deps.locationDeserialize locStr = some loc)
    (hT : List.lookup "Timestamp" row = some tsStr)
    (hTd : deps.timestampDeserialize tsStr = some ts)
    (hF : List.lookup "Fee" row = some feeStr)
    (hFd : feeStr = "" ∨ (deps.amountDeserialize feeStr).isSome = true)
    (hC : List.lookup colname row = some curStr)
    (hA : (assetMapping deps loc curStr).isSome = true) :
    process_rotki_generic_import_csv_fields deps row colname =
      Except.error (FieldError.keyError "Fee Currency") ∧
    (∀ result : String × Option String × Option String × String × Nat,
       process_rotki_generic_import_csv_fields deps row colname ≠ Except.ok result) := by
  have e1 : lookupKey row "Location" = Except.ok locStr :=
    (lookupKey_eq_ok row "Location" locStr).mpr hL
  have e2 : lookupKey row "Timestamp" = Except.ok tsStr :=
    (lookupKey_eq_ok row "Timestamp" tsStr).mpr hT
  have e3 : lookupKey row "Fee" = Except.ok feeStr :=
    (lookupKey_eq_ok row "Fee" feeStr).mpr hF
  have e4 : lookupKey row colname = Except.ok curStr :=
    (lookupKey_eq_ok row colname curStr).mpr hC
  have e5 : lookupKey row "Fee Currency" =
      Except.error (FieldError.keyError "Fee Currency") :=
    lookupKey_eq_err row "Fee Currency" hNoFC
  have efee : ∃ fv : Option String,
      (if feeStr ≠ "" then Option.map Option.some (deps.amountDeserialize feeStr)
       else some none) = some fv := by
    by_cases hfs : feeStr = ""
    · exact ⟨none, by simp [hfs]⟩
    · rcases hFd with rfl | hsome
      · exact absurd rfl hfs
      · obtain ⟨v, hv⟩ := Option.isSome_iff_exists.mp hsome
        exact ⟨some v, by simp [hfs, hv]⟩
  obtain ⟨fv, efee⟩ := efee
  obtain ⟨av, hav⟩ := Option.isSome_iff_exists.mp hA
  have emain : process_rotki_generic_import_csv_fields deps row colname =
      Except.error (FieldError.keyError "Fee Currency") := by
    unfold process_rotki_generic_import_csv_fields
    simp only [e1, hLd, e2, hTd, e3, efee, e4, hav, e5]
  refine ⟨emain, ?_⟩
  intro result hok
  rw [emain] at hok
  exact Except.noConfusion hok

/-- C9 witness: the row lacking `Fee Currency`, with every other field
present and deserializable and `Fee` empty, fails with
`KeyError 'Fee Currency'`. -/
theorem process_generic_missing_fee_currency_witness :
    List.lookup "Fee Currency" noFeeCurrencyRow = none ∧
    List.lookup "Location" noFeeCurrencyRow = some "kraken" ∧
    testDeps.locationDeserialize "kraken" = some "kraken" ∧
    List.lookup "Timestamp" noFeeCurrencyRow = some "1609459200" ∧
    testDeps.timestampDeserialize "1609459200" = some 1609459200000 ∧
    List.lookup "Fee" noFeeCurrencyRow = some "" ∧
    ("" = "" ∨ (testDeps.amountDeserialize "").isSome = true) ∧
    List.lookup "Base Currency" noFeeCurrencyRow = some "BTC" ∧
    (assetMapping testDeps "kraken" "BTC").isSome = true ∧
    (process_rotki_generic_import_csv_fields testDeps noFeeCurrencyRow "Base Currency" =
       Except.error (FieldError.keyError "Fee Currency") ∧
     (∀ result : String × Option String × Option String × String × Nat,
        process_rotki_generic_import_csv_fields testDeps noFeeCurrencyRow "Base Currency" ≠
          Except.ok result)) :=
  ⟨rfl, rfl, rfl, rfl, rfl, rfl, Or.inl rfl, rfl, rfl,
   process_generic_missing_fee_currency testDeps noFeeCurrencyRow "Base Currency"
     "kraken" "1609459200" "" "BTC" "kraken" 1609459200000
     rfl rfl rfl rfl rfl rfl (Or.inl rfl) rfl rfl⟩

/-- C10: `hash_csv_row` is the SHA-256 hex digest of Python's `str()`
rendering of the row mapping, and that rendering preserves insertion
order: the rows `\x7b'a': '1', 'b': '2'\x7d` and
`\x7b'b': '2', 'a': '1'\x7d` hold the same key-value pairs (a permutation
of each other) yet hash to different digests. -/
theorem hash_csv_row_order_sensitive :
    (∀ row : CsvRow, hash_csv_row row = sha256Hex (strBytes (pyStrDict row))) ∧
    rowAB.Perm rowBA ∧
    hash_csv_row rowAB ≠ hash_csv_row rowBA := by
  refine ⟨fun row => rfl, ?_, by decide⟩
  exact List.Perm.swap ("b", "2") ("a", "1") []

end RotkiImport
